import Mathlib

/-!
Verification of the stage-partitioning and pipeline tensor-exchange
subsystem of tensorlink, shallowly embedded from `src/ml/worker.py`.

The embedding models:
  * pickled Python values and `pickle.dumps` / `pickle.loads`
    (the serialization library is external to the repository, so it is
    modelled as an injective, self-delimiting byte encoding with a total
    decoder that can fail);
  * the tagged wire protocol (`TENSOR`, `MODEL`, `FORWARD`, `DONE STREAM`)
    as read off `Worker.send_tensor` / `send_forward` / `send_module` and
    the dispatch chain of `Worker.stream_data`;
  * the message handler `Worker.stream_data`;
  * the placement pass `Worker.distribute_model`;
  * the scheduler tick `Worker.train_loop` and the main loop `Worker.run`;
  * the remote-stage proxy `DistributedModule.forward`.

Machine state is explicit; Python exceptions are `Except.error` values.
-/

namespace Tensorlink

/-- Opaque Python values moved through pickling.  `base` is any non-tuple
object (tensor, module, ...), `pair` is a 2-tuple, which is the only tuple
shape the worker ever unpacks (`(args, kwargs)` in `train_loop`,
`(assoc_forward, backward_batch)` from the backward queue). -/
inductive PVal where
  | base (n : Nat)
  | pair (fst snd : PVal)
deriving DecidableEq, Repr

/-- Model of `pickle.dumps`: an injective, self-delimiting byte encoding
of `PVal`.  The library itself is external to the repository; any
injective encoding with a partial inverse is a faithful model of the
way `worker.py` uses it. -/
def pickleDumps : PVal → List Nat
  | .base n => [0, n]
  | .pair a b => 1 :: (pickleDumps a ++ pickleDumps b)

/-- Fuelled parser for the `pickleDumps` format, consuming a prefix of the
buffer and returning the rest. -/
def parsePVF : Nat → List Nat → Option (PVal × List Nat)
  | 0, _ => none
  | _ + 1, 0 :: n :: rest => some (.base n, rest)
  | f + 1, 1 :: rest =>
    match parsePVF f rest with
    | some (a, r1) =>
      match parsePVF f r1 with
      | some (b, r2) => some (.pair a b, r2)
      | none => none
    | none => none
  | _ + 1, _ => none

/-- Model of `pickle.loads`: total, returning `none` exactly on byte
buffers that are not a complete `pickleDumps` image (in the source this
case raises `pickle.UnpicklingError`). -/
def pickleLoads (bs : List Nat) : Option PVal :=
  match parsePVF bs.length bs with
  | some (v, []) => some v
  | _ => none

lemma parsePVF_dumps :
    ∀ (v : PVal) (extra : List Nat) (fuel : Nat),
      (pickleDumps v).length ≤ fuel →
      parsePVF fuel (pickleDumps v ++ extra) = some (v, extra) := by
  intro v
  induction v with
  | base n =>
    intro extra fuel hf
    match fuel, hf with
    | f + 1, _ => rfl
  | pair a b iha ihb =>
    intro extra fuel hf
    simp only [pickleDumps, List.length_cons, List.length_append] at hf
    match fuel, hf with
    | f + 1, hf =>
      have hab : (pickleDumps a).length + (pickleDumps b).length ≤ f :=
        Nat.lt_succ_iff.mp (Nat.lt_of_lt_of_le (Nat.lt_succ_of_le le_rfl) hf)
      have ha : (pickleDumps a).length ≤ f :=
        le_trans (Nat.le_add_right _ _) hab
      have hb : (pickleDumps b).length ≤ f :=
        le_trans (Nat.le_add_left _ _) hab
      show parsePVF (f + 1) (1 :: (pickleDumps a ++ pickleDumps b ++ extra)) = _
      rw [List.append_assoc]
      simp only [parsePVF, iha (pickleDumps b ++ extra) f ha, ihb extra f hb]

lemma pickleLoads_dumps (v : PVal) : pickleLoads (pickleDumps v) = some v := by
  have h := parsePVF_dumps v [] (pickleDumps v).length le_rfl
  rw [List.append_nil] at h
  simp [pickleLoads, h]

/-- Byte prefix `b"TENSOR"` (`worker.py` line 103 / 276). -/
def tensorTag : List Nat := [84, 69, 78, 83, 79, 82]

/-- Byte prefix `b"MODEL"` (`worker.py` line 113 / 286). -/
def modelTag : List Nat := [77, 79, 68, 69, 76]

/-- Byte prefix `b"FORWARD"` (`worker.py` line 131 / 281). -/
def forwardTag : List Nat := [70, 79, 82, 87, 65, 82, 68]

/-- Byte string `b"DONE STREAM"` (`worker.py` line 122). -/
def doneStreamTag : List Nat := [68, 79, 78, 69, 32, 83, 84, 82, 69, 65, 77]

/-- A wire message: a tag together with its payload.  `doneStreamMsg` is
the control tag, carrying no payload (zero-length). -/
inductive Msg where
  | tensorMsg (v : PVal)
  | modelMsg (v : PVal)
  | forwardMsg (v : PVal)
  | doneStreamMsg
deriving DecidableEq, Repr

/-- The encoder of the wire protocol.  The three data tags are read off
`Worker.send_tensor` (line 276), `Worker.send_module` (line 286) and
`Worker.send_forward` (line 281): tag bytes followed by the pickled
payload.  Modelled from the spec: the `DONE STREAM` sender lives in the
connection layer, outside `src/`; per Section 6 of the specification it is
the bare tag with no payload, which is exactly what the receiver at
`worker.py` line 122 matches on. -/
def encode : Msg → List Nat
  | .tensorMsg v => tensorTag ++ pickleDumps v
  | .modelMsg v => modelTag ++ pickleDumps v
  | .forwardMsg v => forwardTag ++ pickleDumps v
  | .doneStreamMsg => doneStreamTag

/-- The decoder of the wire protocol, read off the dispatch chain of
`Worker.stream_data` (lines 103, 113, 122, 131, in that order): prefix
comparison against each tag, then `pickle.loads` of the remainder.
Returns `none` when no tag matches or the payload does not deserialize. -/
def decode (data : List Nat) : Option Msg :=
  if data.take 6 = tensorTag then
    (pickleLoads (data.drop 6)).map .tensorMsg
  else if data.take 5 = modelTag then
    (pickleLoads (data.drop 5)).map .modelMsg
  else if data = doneStreamTag then
    some .doneStreamMsg
  else if data.take 7 = forwardTag then
    (pickleLoads (data.drop 7)).map .forwardMsg
  else
    none

/-- Claim C6: for every tag in the closed enumeration and every payload
(the control tag `DONE STREAM` carrying its zero-length payload), decoding
the bytes produced by encoding yields back exactly the original tag and
payload. -/
theorem codec_roundtrip (m : Msg) : decode (encode m) = some m := by
  cases m with
  | tensorMsg v =>
    show decode (tensorTag ++ pickleDumps v) = _
    have h6 : (tensorTag ++ pickleDumps v).take 6 = tensorTag := rfl
    have hd : (tensorTag ++ pickleDumps v).drop 6 = pickleDumps v := rfl
    simp [decode, h6, hd, pickleLoads_dumps]
  | modelMsg v =>
    show decode (modelTag ++ pickleDumps v) = _
    have h6 : (modelTag ++ pickleDumps v).take 6 ≠ tensorTag := by
      show 77 :: _ ≠ _
      simp [tensorTag]
    have h5 : (modelTag ++ pickleDumps v).take 5 = modelTag := rfl
    have hd : (modelTag ++ pickleDumps v).drop 5 = pickleDumps v := rfl
    simp [decode, h6, h5, hd, pickleLoads_dumps]
  | forwardMsg v =>
    show decode (forwardTag ++ pickleDumps v) = _
    have h6 : (forwardTag ++ pickleDumps v).take 6 ≠ tensorTag := by
      show 70 :: _ ≠ _
      simp [tensorTag]
    have h5 : (forwardTag ++ pickleDumps v).take 5 ≠ modelTag := by
      show 70 :: _ ≠ _
      simp [modelTag]
    have hds : forwardTag ++ pickleDumps v ≠ doneStreamTag := by
      show 70 :: _ ≠ _
      simp [doneStreamTag]
    have h7 : (forwardTag ++ pickleDumps v).take 7 = forwardTag := rfl
    have hd : (forwardTag ++ pickleDumps v).drop 7 = pickleDumps v := rfl
    simp [decode, h6, h5, hds, h7, hd, pickleLoads_dumps]
  | doneStreamMsg =>
    show decode doneStreamTag = _
    have h6 : doneStreamTag.take 6 ≠ tensorTag := by decide
    have h5 : doneStreamTag.take 5 ≠ modelTag := by decide
    simp [decode, h6, h5]

/-- A peer link (`Connection` from `src/p2p/connection.py`, outside
`src/`): identified, as in the source's side-channel file names, by the
peer's host and port.  Python's `in` test on the `inbound` / `outbound`
lists compares connection objects; it is modelled by structural equality
on the identifier. -/
structure Conn where
  host : Nat
  port : Nat
deriving DecidableEq, Repr

/-- The mutable state of a `Worker` node that the embedded operations
read and write.  `terminateFlag` models the inherited
`terminate_flag` `threading.Event`; `streamedFiles` models the on-disk
side-channel files `streamed_data_{host}_{port}` as an association list
from `(host, port)` to file bytes; `allNodes` models the inherited
`all_nodes` collection of known peer links. -/
structure WState where
  training : Bool
  model : Option PVal
  optimizer : Option Nat
  forwardBatches : List PVal
  backwardBatches : List PVal
  inbound : List Conn
  outbound : List Conn
  terminateFlag : Bool
  port : Nat
  allNodes : List Conn
  streamedFiles : List ((Nat × Nat) × List Nat)
deriving DecidableEq, Repr

/-- Exceptions that can escape `Worker.stream_data`: the handler's
`except` clause debug-prints and then re-raises (`raise e`,
line 139), so every exception propagates to the caller. -/
inductive StreamErr where
  | unpicklingError
  | fileNotFoundError
  | recursionError
deriving DecidableEq, Repr

/-- One dispatch step of `Worker.stream_data` (lines 102-139),
parameterized by the recursive call used in the `DONE STREAM` branch
(line 128).  The branch order, the guard conditions, and the point at
which `pickle.loads` runs all follow the source:
  * `TENSOR` (line 103): only when `training`; the payload is
    deserialized before the peer-list membership test, so a bad payload
    raises even for an unknown peer; an inbound peer's tensor goes to
    the forward queue, else an outbound peer's to the backward queue,
    else the message is dropped;
  * `MODEL` (line 113): acts only when `training` and no model is
    loaded; then the payload is deserialized, stored as the model, and
    `training` is (re)set to `True`;
  * `DONE STREAM` (line 122): reads the side-channel file for this
    peer (raising `FileNotFoundError` when absent), recurses on its
    bytes, and removes the file only if the recursion returned;
  * `FORWARD` (line 131): only when `training` and a model is loaded;
    the payload goes to the forward queue;
  * any other buffer falls through the `elif` chain and the handler
    returns normally with nothing changed. -/
def streamDataCore (recur : WState → Conn → List Nat → Except StreamErr WState)
    (s : WState) (node : Conn) (data : List Nat) :
    Except StreamErr WState :=
  if data.take 6 = tensorTag then
    if s.training then
      match pickleLoads (data.drop 6) with
      | none => .error .unpicklingError
      | some tensor =>
        if node ∈ s.inbound then
          .ok { s with forwardBatches := s.forwardBatches ++ [tensor] }
        else if node ∈ s.outbound then
          .ok { s with backwardBatches := s.backwardBatches ++ [tensor] }
        else
          .ok s
    else
      .ok s
  else if data.take 5 = modelTag then
    if s.training && s.model.isNone then
      match pickleLoads (data.drop 5) with
      | none => .error .unpicklingError
      | some m => .ok { s with model := some m, training := true }
    else
      .ok s
  else if data = doneStreamTag then
    match List.lookup (node.host, node.port) s.streamedFiles with
    | none => .error .fileNotFoundError
    | some fileBytes =>
      match recur s node fileBytes with
      | .error e => .error e
      | .ok s2 =>
        .ok { s2 with
              streamedFiles :=
                s2.streamedFiles.filter (fun kv => kv.1 ≠ (node.host, node.port)) }
  else if data.take 7 = forwardTag then
    if s.training && s.model.isSome then
      match pickleLoads (data.drop 7) with
      | none => .error .unpicklingError
      | some v => .ok { s with forwardBatches := s.forwardBatches ++ [v] }
    else
      .ok s
  else
    .ok s

/-- `Worker.stream_data`, with a fuel bound on the `DONE STREAM`
recursion (in the source an unbounded self-recursion; every claim below is
independent of the fuel). -/
def streamData : Nat → WState → Conn → List Nat → Except StreamErr WState
  | 0, s, node, data =>
    streamDataCore (fun _ _ _ => .error .recursionError) s node data
  | fuel + 1, s, node, data =>
    streamDataCore (streamData fuel) s node data

/-- True of a byte buffer that matches none of the four tag tests in
`stream_data`'s dispatch chain. -/
def unrecognizedTag (data : List Nat) : Bool :=
  !(data.take 6 == tensorTag) && !(data.take 5 == modelTag) &&
    !(data == doneStreamTag) && !(data.take 7 == forwardTag)

lemma streamData_eq_core (fuel : Nat) (s : WState) (node : Conn)
    (data : List Nat) :
    ∃ recur, streamData fuel s node data = streamDataCore recur s node data := by
  cases fuel with
  | zero => exact ⟨_, rfl⟩
  | succ f => exact ⟨_, rfl⟩

lemma streamData_tensor (fuel : Nat) (s : WState) (c : Conn) (v : PVal) :
    streamData fuel s c (tensorTag ++ pickleDumps v) =
      if s.training then
        if c ∈ s.inbound then
          .ok { s with forwardBatches := s.forwardBatches ++ [v] }
        else if c ∈ s.outbound then
          .ok { s with backwardBatches := s.backwardBatches ++ [v] }
        else
          .ok s
      else
        .ok s := by
  obtain ⟨recur, hr⟩ := streamData_eq_core fuel s c (tensorTag ++ pickleDumps v)
  rw [hr]
  have h6 : (tensorTag ++ pickleDumps v).take 6 = tensorTag := rfl
  have hd : (tensorTag ++ pickleDumps v).drop 6 = pickleDumps v := rfl
  simp [streamDataCore, h6, hd, pickleLoads_dumps]

lemma streamData_model_msg (fuel : Nat) (s : WState) (c : Conn) (v : PVal) :
    streamData fuel s c (modelTag ++ pickleDumps v) =
      if s.training && s.model.isNone then
        .ok { s with model := some v, training := true }
      else
        .ok s := by
  obtain ⟨recur, hr⟩ := streamData_eq_core fuel s c (modelTag ++ pickleDumps v)
  rw [hr]
  have h6 : ¬ ((modelTag ++ pickleDumps v).take 6 = tensorTag) := by
    show ¬ (77 :: 79 :: 68 :: 69 :: 76 :: List.take 1 (pickleDumps v) = tensorTag)
    simp [tensorTag]
  have h5 : (modelTag ++ pickleDumps v).take 5 = modelTag := rfl
  have hd : (modelTag ++ pickleDumps v).drop 5 = pickleDumps v := rfl
  simp [streamDataCore, h6, h5, hd, pickleLoads_dumps]

lemma streamDataCore_model_mono
    (recur : WState → Conn → List Nat → Except StreamErr WState)
    (hrec : ∀ s c d s2, recur s c d = .ok s2 → s.model.isSome → s2.model = s.model)
    (s : WState) (c : Conn) (d : List Nat) (s2 : WState)
    (h : streamDataCore recur s c d = .ok s2) (hm : s.model.isSome) :
    s2.model = s.model := by
  unfold streamDataCore at h
  split at h
  · -- TENSOR branch
    split at h
    · split at h
      · exact Except.noConfusion h
      · split at h
        · injection h with h
          rw [← h]
        · split at h
          · injection h with h
            rw [← h]
          · injection h with h
            rw [← h]
    · injection h with h
      rw [← h]
  · split at h
    · -- MODEL branch
      split at h
      · rename_i hguard
        rw [Option.isSome_iff_ne_none] at hm
        simp only [Bool.and_eq_true, Option.isNone_iff_eq_none] at hguard
        exact absurd hguard.2 hm
      · injection h with h
        rw [← h]
    · split at h
      · -- DONE STREAM branch
        split at h
        · exact Except.noConfusion h
        · rename_i fileBytes _
          cases hrc : recur s c fileBytes with
          | error e =>
            rw [hrc] at h
            exact Except.noConfusion h
          | ok s3 =>
            rw [hrc] at h
            injection h with h
            rw [← h]
            exact hrec s c fileBytes s3 hrc hm
      · split at h
        · -- FORWARD branch
          split at h
          · split at h
            · exact Except.noConfusion h
            · injection h with h
              rw [← h]
          · injection h with h
            rw [← h]
        · -- fall-through
          injection h with h
          rw [← h]

lemma streamData_model_mono :
    ∀ (fuel : Nat) (s : WState) (c : Conn) (d : List Nat) (s2 : WState),
      streamData fuel s c d = .ok s2 → s.model.isSome → s2.model = s.model := by
  intro fuel
  induction fuel with
  | zero =>
    intro s c d s2 h hm
    exact streamDataCore_model_mono _
      (fun _ _ _ _ hh _ => Except.noConfusion hh) s c d s2 h hm
  | succ f ih =>
    intro s c d s2 h hm
    exact streamDataCore_model_mono _ ih s c d s2 h hm

lemma streamData_unrecognized (fuel : Nat) (s : WState) (c : Conn)
    (data : List Nat) (h : unrecognizedTag data = true) :
    streamData fuel s c data = .ok s := by
  obtain ⟨recur, hr⟩ := streamData_eq_core fuel s c data
  rw [hr]
  simp only [unrecognizedTag, Bool.and_eq_true, Bool.not_eq_true',
    beq_eq_false_iff_ne, ne_eq] at h
  obtain ⟨⟨⟨h1, h2⟩, h3⟩, h4⟩ := h
  simp [streamDataCore, h1, h2, h3, h4]

/-- Claim C9: a well-formed `TENSOR` message received while training is
enqueued on the forward queue when the sender is in the inbound peer
list; when the sender is instead in the outbound list it is enqueued on
the backward queue; when the sender is in neither list, or the node is
not training, both queues (and the whole state) are left unchanged and
the message is silently discarded (`worker.py` lines 103-111). -/
theorem tensor_routing (fuel : Nat) (s : WState) (c : Conn) (v : PVal) :
    (s.training = true → c ∈ s.inbound →
      streamData fuel s c (tensorTag ++ pickleDumps v) =
        .ok { s with forwardBatches := s.forwardBatches ++ [v] })
    ∧ (s.training = true → c ∉ s.inbound → c ∈ s.outbound →
      streamData fuel s c (tensorTag ++ pickleDumps v) =
        .ok { s with backwardBatches := s.backwardBatches ++ [v] })
    ∧ (s.training = true → c ∉ s.inbound → c ∉ s.outbound →
      streamData fuel s c (tensorTag ++ pickleDumps v) = .ok s)
    ∧ (s.training = false →
      streamData fuel s c (tensorTag ++ pickleDumps v) = .ok s) := by
  refine ⟨?_, ?_, ?_, ?_⟩
  · intro ht hin
    rw [streamData_tensor, if_pos ht, if_pos hin]
  · intro ht hnin hout
    rw [streamData_tensor, if_pos ht, if_neg hnin, if_pos hout]
  · intro ht hnin hnout
    rw [streamData_tensor, if_pos ht, if_neg hnin, if_neg hnout]
  · intro ht
    rw [streamData_tensor, if_neg (by simp [ht])]

def connA : Conn := ⟨1, 10⟩

def s9 : WState :=
  { training := true, model := none, optimizer := none,
    forwardBatches := [], backwardBatches := [],
    inbound := [connA], outbound := [], terminateFlag := false,
    port := 5027, allNodes := [connA], streamedFiles := [] }

/-- Witness for C9 at a concrete state: an inbound peer's tensor lands on
the forward queue. -/
theorem tensor_routing_witness :
    streamData 0 s9 connA (tensorTag ++ pickleDumps (.base 3)) =
      .ok { s9 with forwardBatches := s9.forwardBatches ++ [.base 3] } :=
  (tensor_routing 0 s9 connA (.base 3)).1 rfl (by decide)

/-- Claim C10: a well-formed `MODEL` message changes the node's state only
when the node is training and no model is loaded, in which case the
deserialized stage becomes the model (and `training` is re-asserted); in
every other case the whole state — model and queues included — is
unchanged; and across every message the handler accepts, a loaded model is
never replaced, so the first accepted `MODEL` message fixes the model
(`worker.py` lines 113-120). -/
theorem model_load_once :
    (∀ (fuel : Nat) (s : WState) (c : Conn) (v : PVal),
      s.training = true → s.model = none →
        streamData fuel s c (modelTag ++ pickleDumps v) =
          .ok { s with model := some v, training := true })
    ∧ (∀ (fuel : Nat) (s : WState) (c : Conn) (v : PVal),
      s.training = false ∨ s.model.isSome = true →
        streamData fuel s c (modelTag ++ pickleDumps v) = .ok s)
    ∧ (∀ (fuel : Nat) (s : WState) (c : Conn) (data : List Nat) (s2 : WState),
      streamData fuel s c data = .ok s2 → s.model.isSome = true →
        s2.model = s.model) := by
  refine ⟨?_, ?_, streamData_model_mono⟩
  · intro fuel s c v ht hm
    rw [streamData_model_msg, if_pos (by simp [ht, hm])]
  · intro fuel s c v h
    rw [streamData_model_msg, if_neg ?_]
    intro hguard
    simp only [Bool.and_eq_true, Option.isNone_iff_eq_none] at hguard
    rcases h with h | h
    · rw [hguard.1] at h
      exact Bool.noConfusion h
    · rw [hguard.2] at h
      exact Bool.noConfusion h

def s10 : WState :=
  { training := true, model := none, optimizer := none,
    forwardBatches := [], backwardBatches := [],
    inbound := [], outbound := [], terminateFlag := false,
    port := 5027, allNodes := [], streamedFiles := [] }

/-- Witness for C10 at a concrete state: while training with no model
loaded, a `MODEL` message installs the stage; a second one is then
ignored. -/
theorem model_load_once_witness :
    streamData 0 s10 connA (modelTag ++ pickleDumps (.base 7)) =
      .ok { s10 with model := some (.base 7), training := true }
    ∧ streamData 0 { s10 with model := some (.base 7) } connA
        (modelTag ++ pickleDumps (.base 8)) =
      .ok { s10 with model := some (.base 7) } :=
  ⟨model_load_once.1 0 s10 connA (.base 7) rfl rfl,
   model_load_once.2.1 0 { s10 with model := some (.base 7) } connA (.base 8)
     (Or.inr rfl)⟩

def s4 : WState :=
  { training := true, model := none, optimizer := none,
    forwardBatches := [.base 11], backwardBatches := [.base 12],
    inbound := [connA], outbound := [], terminateFlag := false,
    port := 5027, allNodes := [connA], streamedFiles := [] }

/-- Counterexample to claim C4.  The claim says the handler treats every
undeserializable buffer as a dropped message and returns normally rather
than propagating an exception.  In the code (`worker.py` lines 137-139)
the `except` clause debug-prints and then re-raises, so a `TENSOR`-tagged
buffer whose payload does not unpickle makes `stream_data` propagate the
exception (first conjunct is the claim's own 2-byte unrecognized-tag
scenario, which the code silently ignores without reporting anything;
second conjunct is the propagated deserialization failure). -/
theorem stream_data_raises_on_bad_payload :
    streamData 1 s4 connA [0, 1] = .ok s4
    ∧ streamData 1 s4 connA [84, 69, 78, 83, 79, 82, 9] =
        .error .unpicklingError :=
  ⟨rfl, rfl⟩

/-- Claim C4 as amended: a buffer matching none of the four tags —
including the 2-byte unrecognized-tag scenario — is silently ignored: the
handler returns normally with the state (in particular both queues)
unchanged, and no failure is reported; but a recognized `TENSOR` buffer
whose payload cannot be deserialized while training makes the handler
re-raise after its diagnostic, propagating the exception to the caller
(no enqueue happened before the failure). -/
theorem stream_data_error_policy (fuel : Nat) (s : WState) (c : Conn)
    (data : List Nat) :
    (unrecognizedTag data = true → streamData fuel s c data = .ok s)
    ∧ (data.take 6 = tensorTag → s.training = true →
        pickleLoads (data.drop 6) = none →
        streamData fuel s c data = .error .unpicklingError) := by
  constructor
  · exact streamData_unrecognized fuel s c data
  · intro h6 ht hload
    obtain ⟨recur, hr⟩ := streamData_eq_core fuel s c data
    rw [hr]
    simp [streamDataCore, h6, ht, hload]

/-- Witness for the amended C4 at concrete inputs. -/
theorem stream_data_error_policy_witness :
    streamData 0 s4 connA [2, 2] = .ok s4
    ∧ streamData 0 s4 connA [84, 69, 78, 83, 79, 82, 5, 5] =
        .error .unpicklingError :=
  ⟨(stream_data_error_policy 0 s4 connA [2, 2]).1 (by decide),
   (stream_data_error_policy 0 s4 connA [84, 69, 78, 83, 79, 82, 5, 5]).2
     (by decide) rfl (by decide)⟩

/-- The outcome `Worker.distribute_model` (lines 141-197) gives one stage:
kept on this node with its footprint charged to the local budget
(`localP`), wrapped in a `DistributedModule` and shipped to the candidate
peer (`remoteP`), or — when it fits neither budget — left in the model
untouched with no budget accounting, no transfer and no error
(`skippedP`: the loop body simply has no third branch). -/
inductive Placement where
  | localP
  | remoteP
  | skippedP
deriving DecidableEq, Repr

/-- Result of the placement pass: the per-stage outcomes in ordinal
order, the remaining local budget (`self.available_memory`), the
remaining tracked budget of the single candidate peer
(`candidate_node_memory`), and the number of `MODEL`-tagged transfers
sent (`send_module` calls). -/
structure Plan where
  placements : List Placement
  localRemaining : Nat
  peerRemaining : Nat
  modelMsgs : Nat
deriving DecidableEq, Repr

/-- `Worker.distribute_model`'s placement loop (lines 165-197) over the
ordered list of stage memory estimates.  The source enumerates the
stages by walking the model class's `__init__` assignments in
declaration order and matching them against `named_children`; the
abstract input here is that ordered footprint list, and the initial
budgets are the values of `self.available_memory` and
`candidate_node_memory` when the pass starts.  Per stage (lines
179-195): if `module_memory < self.available_memory`, keep it local and
decrement the local budget; `elif module_memory <
candidate_node_memory`, send one `MODEL`-tagged transfer, wrap the
stage, and decrement the peer budget; otherwise nothing happens and the
loop moves on. -/
def distributeModel : List Nat → Nat → Nat → Plan
  | [], lb, pb => ⟨[], lb, pb, 0⟩
  | fp :: rest, lb, pb =>
    if fp < lb then
      let p := distributeModel rest (lb - fp) pb
      ⟨.localP :: p.placements, p.localRemaining, p.peerRemaining, p.modelMsgs⟩
    else if fp < pb then
      let p := distributeModel rest lb (pb - fp)
      ⟨.remoteP :: p.placements, p.localRemaining, p.peerRemaining,
        p.modelMsgs + 1⟩
    else
      let p := distributeModel rest lb pb
      ⟨.skippedP :: p.placements, p.localRemaining, p.peerRemaining,
        p.modelMsgs⟩

lemma dm_placements_length (fps : List Nat) (lb pb : Nat) :
    (distributeModel fps lb pb).placements.length = fps.length := by
  induction fps generalizing lb pb with
  | nil => rfl
  | cons fp rest ih =>
    simp only [distributeModel]
    split_ifs <;> simp [ih]

lemma dm_append (xs ys : List Nat) (lb pb : Nat) :
    distributeModel (xs ++ ys) lb pb =
      { placements := (distributeModel xs lb pb).placements ++
          (distributeModel ys (distributeModel xs lb pb).localRemaining
            (distributeModel xs lb pb).peerRemaining).placements,
        localRemaining := (distributeModel ys
          (distributeModel xs lb pb).localRemaining
          (distributeModel xs lb pb).peerRemaining).localRemaining,
        peerRemaining := (distributeModel ys
          (distributeModel xs lb pb).localRemaining
          (distributeModel xs lb pb).peerRemaining).peerRemaining,
        modelMsgs := (distributeModel xs lb pb).modelMsgs +
          (distributeModel ys (distributeModel xs lb pb).localRemaining
            (distributeModel xs lb pb).peerRemaining).modelMsgs } := by
  induction xs generalizing lb pb with
  | nil => simp [distributeModel]
  | cons fp rest ih =>
    simp only [List.cons_append, distributeModel]
    split_ifs with h1 h2 <;>
      (simp [ih, Plan.mk.injEq]; try omega)

lemma dm_step (fps : List Nat) (lb pb i fp : Nat) (h : fps[i]? = some fp) :
    (distributeModel fps lb pb).placements[i]? =
      some (if fp < (distributeModel (fps.take i) lb pb).localRemaining then
              Placement.localP
            else if fp < (distributeModel (fps.take i) lb pb).peerRemaining then
              Placement.remoteP
            else
              Placement.skippedP)
    ∧ distributeModel (fps.take (i + 1)) lb pb =
       (if fp < (distributeModel (fps.take i) lb pb).localRemaining then
          { distributeModel (fps.take i) lb pb with
            placements := (distributeModel (fps.take i) lb pb).placements ++
              [Placement.localP],
            localRemaining :=
              (distributeModel (fps.take i) lb pb).localRemaining - fp }
        else if fp < (distributeModel (fps.take i) lb pb).peerRemaining then
          { distributeModel (fps.take i) lb pb with
            placements := (distributeModel (fps.take i) lb pb).placements ++
              [Placement.remoteP],
            peerRemaining :=
              (distributeModel (fps.take i) lb pb).peerRemaining - fp,
            modelMsgs := (distributeModel (fps.take i) lb pb).modelMsgs + 1 }
        else
          { distributeModel (fps.take i) lb pb with
            placements := (distributeModel (fps.take i) lb pb).placements ++
              [Placement.skippedP] }) := by
  obtain ⟨hi, -⟩ := List.getElem?_eq_some.mp h
  have hlen : (fps.take i).length = i := by
    simp [List.length_take]
    omega
  constructor
  · have hfps : fps = fps.take i ++ fps.drop i :=
      (List.take_append_drop i fps).symm
    have hdrop : fps.drop i = fp :: fps.drop (i + 1) := by
      obtain ⟨h1, h2⟩ := List.getElem?_eq_some.mp h
      rw [List.drop_eq_getElem_cons h1, h2]
    conv_lhs => rw [hfps, hdrop, dm_append]
    rw [List.getElem?_append_right (by rw [dm_placements_length, hlen])]
    rw [dm_placements_length, hlen, Nat.sub_self]
    simp only [distributeModel]
    split_ifs <;> simp
  · have htake : fps.take (i + 1) = fps.take i ++ [fp] := by
      rw [List.take_succ, h]
      rfl
    rw [htake, dm_append]
    simp only [distributeModel]
    split_ifs <;> simp [Plan.mk.injEq]

lemma dm_msgs_count (fps : List Nat) (lb pb : Nat) :
    (distributeModel fps lb pb).modelMsgs =
      (distributeModel fps lb pb).placements.count Placement.remoteP := by
  induction fps generalizing lb pb with
  | nil => rfl
  | cons fp rest ih =>
    simp only [distributeModel]
    split_ifs <;> simp [List.count_cons, ih]

/-- Claim C1: the planner walks the stages in ordinal order; a stage is
placed locally exactly when its footprint is strictly below the remaining
local budget (which it then decrements), is placed remotely exactly when
it does not fit locally but is strictly below the candidate peer's
remaining budget (decrementing that and sending exactly one
`MODEL`-tagged transfer — the transfer count equals the number of remote
placements), and for footprints `[400, 1200, 300]` with local budget 1000
and peer budget 2000 the plan is stage0 local (600 left), stage1 remote
(peer 800 left), stage2 local (300 left), with exactly one `MODEL`
message. -/
theorem placement_rule :
    (∀ (fps : List Nat) (lb pb i fp : Nat), fps[i]? = some fp →
      ((distributeModel fps lb pb).placements[i]? = some Placement.localP ↔
          fp < (distributeModel (fps.take i) lb pb).localRemaining)
      ∧ ((distributeModel fps lb pb).placements[i]? = some Placement.remoteP ↔
          (¬ fp < (distributeModel (fps.take i) lb pb).localRemaining ∧
            fp < (distributeModel (fps.take i) lb pb).peerRemaining))
      ∧ (fp < (distributeModel (fps.take i) lb pb).localRemaining →
          distributeModel (fps.take (i + 1)) lb pb =
            { distributeModel (fps.take i) lb pb with
              placements := (distributeModel (fps.take i) lb pb).placements ++
                [Placement.localP],
              localRemaining :=
                (distributeModel (fps.take i) lb pb).localRemaining - fp })
      ∧ (¬ fp < (distributeModel (fps.take i) lb pb).localRemaining →
          fp < (distributeModel (fps.take i) lb pb).peerRemaining →
          distributeModel (fps.take (i + 1)) lb pb =
            { distributeModel (fps.take i) lb pb with
              placements := (distributeModel (fps.take i) lb pb).placements ++
                [Placement.remoteP],
              peerRemaining :=
                (distributeModel (fps.take i) lb pb).peerRemaining - fp,
              modelMsgs := (distributeModel (fps.take i) lb pb).modelMsgs + 1 }))
    ∧ (∀ (fps : List Nat) (lb pb : Nat),
        (distributeModel fps lb pb).modelMsgs =
          (distributeModel fps lb pb).placements.count Placement.remoteP)
    ∧ distributeModel [400, 1200, 300] 1000 2000 =
        ⟨[Placement.localP, Placement.remoteP, Placement.localP],
          300, 800, 1⟩ := by
  refine ⟨?_, dm_msgs_count, by decide⟩
  intro fps lb pb i fp h
  obtain ⟨hget, hstep⟩ := dm_step fps lb pb i fp h
  refine ⟨?_, ?_, ?_, ?_⟩
  · rw [hget]
    split_ifs with h1 h2
    · simp [h1]
    · simp [h1]
    · simp [h1]
  · rw [hget]
    split_ifs with h1 h2
    · simp [h1]
    · simp [h1, h2]
    · simp [h1, h2]
  · intro h1
    rw [hstep, if_pos h1]
  · intro h1 h2
    rw [hstep, if_neg h1, if_pos h2]

/-- Witness for C1: on the concrete scenario, stage 1 (footprint 1200) is
placed remotely because it exceeds the 600 of remaining local budget but
fits the peer's 2000. -/
theorem placement_rule_witness :
    (distributeModel [400, 1200, 300] 1000 2000).placements[1]? =
      some Placement.remoteP :=
  ((placement_rule.1 [400, 1200, 300] 1000 2000 1 1200 rfl).2.1).mpr
    (by decide)

/-- Counterexample to claim C3.  The claim says that when a stage fits
neither the remaining local budget nor the candidate peer's remaining
budget, placement fails with `InsufficientCapacity` and commits nothing.
In the code (`worker.py` lines 179-195) there is no failure path at all:
with footprints `[1200, 300]` and both budgets 1000, stage 0 fits nowhere,
yet the pass completes, silently leaves stage 0 in the model with no
budget accounting, still commits stage 1 locally (decrementing the local
budget to 700), and `self.model = model` (line 197) installs the result. -/
theorem planner_commits_despite_overflow :
    ¬ 1200 < (distributeModel ([] : List Nat) 1000 1000).localRemaining
    ∧ ¬ 1200 < (distributeModel ([] : List Nat) 1000 1000).peerRemaining
    ∧ distributeModel [1200, 300] 1000 1000 =
        ⟨[Placement.skippedP, Placement.localP], 700, 1000, 0⟩ := by
  decide

/-- Claim C3 as amended: a stage that fits neither the remaining local
budget nor the candidate peer's remaining budget is silently skipped —
no placement, no budget change, no `MODEL` transfer for it, and no error
— while the pass continues and commits every other stage's placement;
the planner never fails and never rolls anything back. -/
theorem planner_skips_unplaceable (fps : List Nat) (lb pb i fp : Nat)
    (h : fps[i]? = some fp)
    (hl : ¬ fp < (distributeModel (fps.take i) lb pb).localRemaining)
    (hp : ¬ fp < (distributeModel (fps.take i) lb pb).peerRemaining) :
    (distributeModel fps lb pb).placements[i]? = some Placement.skippedP
    ∧ distributeModel (fps.take (i + 1)) lb pb =
        { distributeModel (fps.take i) lb pb with
          placements := (distributeModel (fps.take i) lb pb).placements ++
            [Placement.skippedP] }
    ∧ (distributeModel fps lb pb).placements.length = fps.length := by
  obtain ⟨hget, hstep⟩ := dm_step fps lb pb i fp h
  refine ⟨?_, ?_, dm_placements_length fps lb pb⟩
  · rw [hget, if_neg hl, if_neg hp]
  · rw [hstep, if_neg hl, if_neg hp]

/-- Witness for the amended C3 at the concrete overflow scenario. -/
theorem planner_skips_unplaceable_witness :
    (distributeModel [1200, 300] 1000 1000).placements[0]? =
      some Placement.skippedP :=
  (planner_skips_unplaceable [1200, 300] 1000 1000 0 1200 rfl
    (by decide) (by decide)).1

/-- The opaque numeric engine behind the scheduler tick.  The
specification treats "compute forward" and "compute backward" as opaque
calls, so the embedding is parameterized by them:
  * `backward f b` models `assoc_forward.backward(backward_batch,
    retain_graph=True)` (the returned loss is bound and discarded);
  * `grad f` models `assoc_forward.grad`, the gradient the engine
    retains on the forward record after the backward call;
  * `detach` models `Tensor.detach`;
  * `zeroGrad` / `step` model `optimizer.zero_grad()` /
    `optimizer.step()` acting on the optimizer's state (the source calls
    them in exactly that order, line 253-254);
  * `handleOutput` models `model_analyzer.handle_output`, a helper
    outside `src/`;
  * `run m a k` models `self.model(handle_output(args), **kwargs)`. -/
structure Engine where
  backward : PVal → PVal → PVal
  grad : PVal → PVal
  detach : PVal → PVal
  zeroGrad : Nat → Nat
  step : Nat → Nat
  handleOutput : PVal → PVal
  run : PVal → PVal → PVal → PVal

/-- Observable actions of one scheduler tick, in execution order. -/
inductive Event where
  | dequeuedGradient
  | ranBackward
  | optimizerStep
  | sentTensor (peer : Conn) (v : PVal)
  | dequeuedActivation
  | ranForward
  | sentForward (peer : Conn) (v : PVal)
  | stopPeer (peer : Conn)
  | joinPeer (peer : Conn)
  | sockClosed
deriving DecidableEq, Repr

/-- Exceptions a tick can raise (they are not caught anywhere in
`train_loop` or `run`). -/
inductive TrainErr where
  | indexError
  | typeError
  | attributeError
  | emptyQueueBlock
deriving DecidableEq, Repr

/-- The backward branch of `Worker.train_loop` (lines 244-258), mirroring
the source's statement order:
  * `next_node = self.outbound[0]` — raising `IndexError` when the
    outbound list is empty, before anything is dequeued;
  * `assoc_forward, backward_batch = self.backward_batches.get()` —
    dequeue one item; unpacking raises `TypeError` when the item is not
    a 2-tuple (in that case the item has already left the queue, a state
    the error result does not need to carry since the exception aborts
    the tick);
  * `loss = assoc_forward.backward(backward_batch, retain_graph=True)`;
  * `self.optimizer.zero_grad()` then `self.optimizer.step()` — an
    `AttributeError` when no optimizer is set;
  * `dvalues = assoc_forward.grad`;
    `self.send_tensor(dvalues.detach(), next_node)`.
The consumed forward record (`assoc_forward`) is dropped with the
dequeued item. -/
def trainBackward (eng : Engine) (s : WState) :
    Except TrainErr (WState × List Event) :=
  match s.outbound with
  | [] => .error .indexError
  | nextNode :: _ =>
    match s.backwardBatches with
    | [] => .error .emptyQueueBlock
    | item :: rest =>
      match item with
      | .pair assocForward backwardBatch =>
        let _loss := eng.backward assocForward backwardBatch
        match s.optimizer with
        | none => .error .attributeError
        | some opt =>
          let opt2 := eng.step (eng.zeroGrad opt)
          let dvalues := eng.grad assocForward
          .ok ({ s with backwardBatches := rest, optimizer := some opt2 },
            [Event.dequeuedGradient, Event.ranBackward, Event.optimizerStep,
              Event.sentTensor nextNode (eng.detach dvalues)])
      | _ => .error .typeError

/-- The forward branch of `Worker.train_loop` (lines 261-272):
`next_node = self.inbound[0]` (an `IndexError` when empty), dequeue one
activation, split it into `(args, kwargs)` when it is a tuple (else
`kwargs = {}`, modelled as `base 0`), run the model (`TypeError` when
`self.model` is `None`), and send the output to `next_node`. -/
def trainForward (eng : Engine) (s : WState) :
    Except TrainErr (WState × List Event) :=
  match s.inbound with
  | [] => .error .indexError
  | nextNode :: _ =>
    match s.forwardBatches with
    | [] => .error .emptyQueueBlock
    | item :: rest =>
      let argsKwargs : PVal × PVal :=
        match item with
        | .pair a k => (a, k)
        | other => (other, PVal.base 0)
      match s.model with
      | none => .error .typeError
      | some m =>
        let out := eng.run m (eng.handleOutput argsKwargs.1) argsKwargs.2
        .ok ({ s with forwardBatches := rest },
          [Event.dequeuedActivation, Event.ranForward,
            Event.sentForward nextNode out])

/-- One scheduler tick, `Worker.train_loop` (lines 242-272): the backward
branch runs whenever `self.backward_batches.empty() is False`; the
forward branch runs only in the `elif`, i.e. when the backward queue was
empty and the forward queue is not; otherwise the tick does nothing. -/
def trainLoop (eng : Engine) (s : WState) :
    Except TrainErr (WState × List Event) :=
  if !s.backwardBatches.isEmpty then trainBackward eng s
  else if !s.forwardBatches.isEmpty then trainForward eng s
  else .ok (s, [])

/-- Claim C2: whenever the backward queue is non-empty the tick executes
the backward branch — so on a successful tick the forward queue is
untouched, no activation is dequeued, and a gradient is dequeued — and
an activation can be dequeued only on a tick that began with an empty
backward queue, for every state of the two queues. -/
theorem backward_priority (eng : Engine) (s : WState) :
    (s.backwardBatches ≠ [] →
      trainLoop eng s = trainBackward eng s
      ∧ ∀ s2 tr, trainLoop eng s = .ok (s2, tr) →
          s2.forwardBatches = s.forwardBatches
          ∧ Event.dequeuedActivation ∉ tr
          ∧ Event.dequeuedGradient ∈ tr)
    ∧ (∀ s2 tr, trainLoop eng s = .ok (s2, tr) →
        Event.dequeuedActivation ∈ tr → s.backwardBatches = []) := by
  constructor
  · intro hne
    have hb : (!s.backwardBatches.isEmpty) = true := by
      simp [List.isEmpty_iff, hne]
    constructor
    · simp [trainLoop, hb]
    · intro s2 tr h
      rw [trainLoop, if_pos hb] at h
      unfold trainBackward at h
      split at h
      · exact Except.noConfusion h
      · split at h
        · exact Except.noConfusion h
        · split at h
          · split at h
            · exact Except.noConfusion h
            · injection h with h
              injection h with h1 h2
              rw [← h1, ← h2]
              refine ⟨rfl, by simp, by simp⟩
          · exact Except.noConfusion h
  · intro s2 tr h hAct
    by_cases hb : s.backwardBatches = []
    · exact hb
    · exfalso
      have hbb : (!s.backwardBatches.isEmpty) = true := by
        simp [List.isEmpty_iff, hb]
      rw [trainLoop, if_pos hbb] at h
      unfold trainBackward at h
      split at h
      · exact Except.noConfusion h
      · split at h
        · exact Except.noConfusion h
        · split at h
          · split at h
            · exact Except.noConfusion h
            · injection h with h
              injection h with h1 h2
              rw [← h2] at hAct
              simp at hAct
          · exact Except.noConfusion h

/-- A trivial concrete numeric engine for witnesses. -/
def engTriv : Engine :=
  { backward := fun _ b => b, grad := fun f => f, detach := fun v => v,
    zeroGrad := fun o => o, step := fun o => o + 1,
    handleOutput := fun a => a, run := fun _ a _ => a }

def connB : Conn := ⟨2, 20⟩

def sBoth : WState :=
  { training := true, model := some (.base 1), optimizer := some 0,
    forwardBatches := [.base 3],
    backwardBatches := [.pair (.base 1) (.base 2)],
    inbound := [connA], outbound := [connB], terminateFlag := false,
    port := 5027, allNodes := [connA, connB], streamedFiles := [] }

/-- Witness for C2 at a concrete state with both queues non-empty: the
tick is the backward branch and the forward queue survives unchanged. -/
theorem backward_priority_witness :
    trainLoop engTriv sBoth = trainBackward engTriv sBoth
    ∧ ∀ s2 tr, trainLoop engTriv sBoth = .ok (s2, tr) →
        s2.forwardBatches = sBoth.forwardBatches
        ∧ Event.dequeuedActivation ∉ tr
        ∧ Event.dequeuedGradient ∈ tr :=
  (backward_priority engTriv sBoth).1 (by decide)

def sNoOut : WState :=
  { training := true, model := some (.base 1), optimizer := some 0,
    forwardBatches := [],
    backwardBatches := [.pair (.base 4) (.base 5)],
    inbound := [connA], outbound := [], terminateFlag := false,
    port := 5027, allNodes := [connA], streamedFiles := [] }

/-- Counterexample to claim C7.  The claim says that when the local stage
is the pipeline's first stage the newly computed gradient is discarded
and the tick still completes its steps.  The code has no such case: it
evaluates `self.outbound[0]` unconditionally (line 245), so on a node
with no outbound peer — the only reading of "first stage" the state
offers — a tick with a pending gradient raises `IndexError` instead of
discarding and completing. -/
theorem backward_tick_no_discard_case :
    trainLoop engTriv sNoOut = .error .indexError := rfl

/-- Claim C7 as amended: on a tick whose backward queue is non-empty,
with a well-formed head item `(assoc_forward, backward_batch)`, a
non-empty outbound list and an optimizer set, the tick performs exactly,
in order: dequeue the gradient item, run the stage's backward computation
against the item's forward record, step the optimizer (a `zero_grad`
followed by `step`), and send the newly detached gradient to the head of
the outbound list; the consumed record leaves the queue with the item.
There is no discard case: with an empty outbound list the tick raises
`IndexError` before dequeuing anything. -/
theorem backward_tick_steps :
    (∀ (eng : Engine) (s : WState) (f b : PVal) (rest : List PVal)
        (c : Conn) (cs : List Conn) (opt : Nat),
      s.backwardBatches = .pair f b :: rest →
      s.outbound = c :: cs →
      s.optimizer = some opt →
      trainLoop eng s =
        .ok ({ s with backwardBatches := rest,
                      optimizer := some (eng.step (eng.zeroGrad opt)) },
          [Event.dequeuedGradient, Event.ranBackward, Event.optimizerStep,
            Event.sentTensor c (eng.detach (eng.grad f))]))
    ∧ (∀ (eng : Engine) (s : WState),
        s.outbound = [] → s.backwardBatches ≠ [] →
        trainLoop eng s = .error .indexError) := by
  constructor
  · intro eng s f b rest c cs opt hq hout hopt
    have hb : (!s.backwardBatches.isEmpty) = true := by
      simp [List.isEmpty_iff, hq]
    rw [trainLoop, if_pos hb]
    unfold trainBackward
    rw [hout, hq, hopt]
  · intro eng s hout hne
    have hb : (!s.backwardBatches.isEmpty) = true := by
      simp [List.isEmpty_iff, hne]
    rw [trainLoop, if_pos hb]
    unfold trainBackward
    rw [hout]

/-- Witness for the amended C7 at a concrete state. -/
theorem backward_tick_steps_witness :
    trainLoop engTriv sBoth =
      .ok ({ sBoth with backwardBatches := [], optimizer := some 1 },
        [Event.dequeuedGradient, Event.ranBackward, Event.optimizerStep,
          Event.sentTensor connB (.base 1)]) :=
  backward_tick_steps.1 engTriv sBoth (.base 1) (.base 2) [] connB [] 0
    rfl rfl rfl

/-- Result of running `Worker.run`'s main loop for a bounded number of
iterations: still looping when the fuel runs out, stopped through the
shutdown path after the terminate flag was observed set, or exited
abnormally because an exception escaped the loop body (in the source
nothing catches what `train_loop` raises, so the `while` is abandoned and
none of the code after it runs). -/
inductive RunRes where
  | running (s : WState)
  | stopped (s : WState) (trace : List Event)
  | crashed (e : TrainErr)
deriving DecidableEq, Repr

/-- The shutdown sequence after `Worker.run`'s loop (lines 229-240):
`node.stop()` for every known peer link, then `node.join()` for each,
then the transport socket is closed. -/
def shutdownTrace (nodes : List Conn) : List Event :=
  nodes.map Event.stopPeer ++ nodes.map Event.joinPeer ++ [Event.sockClosed]

/-- `Worker.run`'s main loop (lines 209-240), fuel-bounded.  Each
iteration re-checks `terminate_flag`; the body runs `train_loop` when
`self.training` holds and the port is not the hard-coded master-test port
5026, then `reconnect_nodes()` — a `SmartNode` method outside `src/`,
passed in as the opaque `rc` (modelled from the spec: it re-attempts
dropped peer connections and is assumed flag-preserving where a theorem
needs that).  An exception from the body propagates: the loop is exited
with no shutdown. -/
def runLoop (eng : Engine) (rc : WState → WState) :
    Nat → WState → RunRes
  | 0, s => .running s
  | fuel + 1, s =>
    if s.terminateFlag then .stopped s (shutdownTrace s.allNodes)
    else
      match (if s.training && !(s.port == 5026) then trainLoop eng s
             else .ok (s, [])) with
      | .error e => .crashed e
      | .ok (s2, _) => runLoop eng rc fuel (rc s2)

lemma trainLoop_preserves_flag (eng : Engine) (s s2 : WState)
    (tr : List Event) (h : trainLoop eng s = .ok (s2, tr)) :
    s2.terminateFlag = s.terminateFlag := by
  unfold trainLoop at h
  split at h
  · unfold trainBackward at h
    split at h
    · exact Except.noConfusion h
    · split at h
      · exact Except.noConfusion h
      · split at h
        · split at h
          · exact Except.noConfusion h
          · injection h with h
            injection h with h1 h2
            rw [← h1]
        · exact Except.noConfusion h
  · split at h
    · unfold trainForward at h
      split at h
      · exact Except.noConfusion h
      · split at h
        · exact Except.noConfusion h
        · split at h
          · split at h
            · exact Except.noConfusion h
            · injection h with h
              injection h with h1 h2
              rw [← h1]
          · split at h
            · exact Except.noConfusion h
            · injection h with h
              injection h with h1 h2
              rw [← h1]
    · injection h with h
      injection h with h1 h2
      rw [← h1]

lemma runLoop_stops_in_order (eng : Engine) (rc : WState → WState)
    (fuel : Nat) (s : WState) (h : s.terminateFlag = true) :
    runLoop eng rc (fuel + 1) s =
      .stopped s (s.allNodes.map Event.stopPeer ++
        s.allNodes.map Event.joinPeer ++ [Event.sockClosed]) := by
  simp [runLoop, h, shutdownTrace]

lemma runLoop_no_stop_while_unset (eng : Engine) (rc : WState → WState)
    (hrc : ∀ s, (rc s).terminateFlag = s.terminateFlag) :
    ∀ (fuel : Nat) (s : WState), s.terminateFlag = false →
      ∀ s2 tr, runLoop eng rc fuel s ≠ .stopped s2 tr := by
  intro fuel
  induction fuel with
  | zero =>
    intro s hflag s2 tr
    simp [runLoop]
  | succ f ih =>
    intro s hflag s2 tr
    rw [runLoop, if_neg (by simp [hflag])]
    split
    · simp
    · rename_i s3 tr3 heq
      apply ih
      split at heq
      · rw [hrc, trainLoop_preserves_flag eng s s3 tr3 heq]
        exact hflag
      · injection heq with heq
        injection heq with h1 h2
        rw [hrc, ← h1]
        exact hflag

def sCrash : WState :=
  { training := true, model := some (.base 1), optimizer := some 0,
    forwardBatches := [],
    backwardBatches := [.base 9],
    inbound := [connA], outbound := [connB], terminateFlag := false,
    port := 5027, allNodes := [connA, connB], streamedFiles := [] }

/-- Claim C8's failing input evaluated on the code.  `sCrash` is a
training worker whose backward queue holds a bare (non-tuple) tensor —
exactly what a peer worker's own `send_tensor(dvalues.detach(), ...)`
(line 258) delivers, since `stream_data` enqueues `TENSOR` payloads from
outbound peers verbatim.  With the stop signal unset, the very first
loop iteration's `train_loop` raises `TypeError` at the tuple unpacking
(line 248); nothing catches it, so the main loop exits while the stop
signal is unset and the stop/join/close shutdown sequence never runs —
against both the claim and the specification's fail-soft tick
(Sections 4.5 and 7). -/
theorem run_crashes_without_shutdown :
    sCrash.terminateFlag = false
    ∧ runLoop engTriv (fun s => s) 1 sCrash = .crashed .typeError :=
  ⟨rfl, rfl⟩

/-- Result of one `DistributedModule.forward` call (lines 25-32).
`remoteTimeout` is modelled from the spec (Section 4.4's `RemoteTimeout`
failure); it is included only so the claimed failure mode can be stated —
the code never produces it. -/
inductive DMRes where
  | returned (v : PVal) (rest : List PVal)
  | blocksForever
  | remoteTimeout
deriving DecidableEq, Repr

/-- `DistributedModule.forward` (lines 25-32): send one `FORWARD` message
carrying the pickled `(args, kwargs)` to the worker, `time.sleep(1)`,
then `if self.master_node.forward_batches.not_empty:` — `Queue.not_empty`
is a `threading.Condition` object, truthy by default, so the test always
passes — and `forward_batches.get()`, a blocking dequeue with no timeout.
The second component is the call's outcome as a function of the queue
contents at the moment `get()` runs: the head item when one is there, and
an indefinite block when the queue is empty and nothing ever arrives. -/
def dmForward (argsKwargs : PVal) (queueWhenGetRuns : List PVal) :
    List Nat × DMRes :=
  (forwardTag ++ pickleDumps argsKwargs,
   match queueWhenGetRuns with
   | [] => .blocksForever
   | v :: rest => .returned v rest)

/-- Counterexample to claim C5.  The claim says a forward call for which
no matching activation ever arrives fails with `RemoteTimeout` within a
bounded time and never blocks indefinitely.  The code has no timeout at
all: after the fixed 1-second sleep it always reaches
`forward_batches.get()` (the `not_empty` condition object is always
truthy), which on an empty queue blocks forever. -/
theorem proxy_forward_blocks_forever :
    (dmForward (.base 0) []).2 = .blocksForever
    ∧ (dmForward (.base 0) []).2 ≠ .remoteTimeout :=
  ⟨rfl, by decide⟩

/-- Claim C5 as amended: a proxy forward call sends its `FORWARD`-tagged
message, sleeps a fixed 1 second, and then unconditionally performs a
blocking dequeue with no timeout: when no activation ever arrives it
blocks indefinitely (leaving the queue empty), when the queue is
non-empty it returns the head item, and in no case does it fail with
`RemoteTimeout` — no such error exists in the code. -/
theorem proxy_forward_behavior (a : PVal) (q : List PVal) :
    (q = [] → (dmForward a q).2 = .blocksForever)
    ∧ (∀ v r, q = v :: r → (dmForward a q).2 = .returned v r)
    ∧ (dmForward a q).2 ≠ .remoteTimeout
    ∧ (dmForward a q).1 = forwardTag ++ pickleDumps a := by
  refine ⟨?_, ?_, ?_, rfl⟩
  · intro h
    subst h
    rfl
  · intro v r h
    subst h
    rfl
  · cases q <;> simp [dmForward]

/-- Witness for the amended C5 at concrete inputs. -/
theorem proxy_forward_behavior_witness :
    (dmForward (.base 6) [.base 7]).2 = .returned (.base 7) [] :=
  (proxy_forward_behavior (.base 6) [.base 7]).2.1 (.base 7) [] rfl

end Tensorlink
